import Mathlib

/-!
Verification development for the DevShop generation-and-deployment pipeline.

The TypeScript sources are shallowly embedded: pure string/path computations
become Lean functions, and every effectful step (filesystem, network, child
process, clock) is an explicit oracle parameter, so each embedded operation is
a total Lean function of its inputs and its environment.
-/

namespace DevShop

/-! ## String primitives

Embeddings of the JavaScript string operations used by the sources:
`String.prototype.startsWith`, `endsWith`, `includes` and `Array.join`,
defined by recursion on the character lists so that they can be evaluated by
the kernel and reasoned about directly.
-/

/-- Decides whether the character list `p` is a prefix of `l`. -/
def prefixCheck : List Char → List Char → Bool
  | [], _ => true
  | _ :: _, [] => false
  | a :: as, b :: bs => a == b && prefixCheck as bs

/-- Embedding of JavaScript `s.startsWith(p)`. -/
def strStartsWith (s p : String) : Bool :=
  prefixCheck p.data s.data

/-- Embedding of JavaScript `s.endsWith(p)`. -/
def strEndsWith (s p : String) : Bool :=
  prefixCheck p.data.reverse s.data.reverse

/-- Decides whether `p` occurs as a contiguous block of `l`. -/
def subOccurs (p : List Char) : List Char → Bool
  | [] => prefixCheck p []
  | c :: rest => prefixCheck p (c :: rest) || subOccurs p rest

/-- Embedding of JavaScript `s.includes(sub)`. -/
def strContains (s sub : String) : Bool :=
  subOccurs sub.data s.data

/-- Embedding of JavaScript `parts.join(sep)`. -/
def joinWith (sep : String) : List String → String
  | [] => ""
  | [x] => x
  | x :: y :: xs => x ++ sep ++ joinWith sep (y :: xs)

/-- ASCII lower-casing of one character, as JavaScript `toLowerCase` acts on
the ASCII names this system manipulates. -/
def asciiLowerChar (c : Char) : Char :=
  if 'A' ≤ c ∧ c ≤ 'Z' then Char.ofNat (c.toNat + 32) else c

/-- Embedding of JavaScript `s.toLowerCase()` (ASCII range). -/
def asciiLower (s : String) : String :=
  String.mk (s.data.map asciiLowerChar)

theorem string_data_append (a b : String) : (a ++ b).data = a.data ++ b.data := by
  cases a
  cases b
  rfl

theorem prefixCheck_append (p l t : List Char) (h : prefixCheck p l = true) :
    prefixCheck p (l ++ t) = true := by
  induction p generalizing l with
  | nil => simp [prefixCheck]
  | cons a as ih =>
    cases l with
    | nil => simp [prefixCheck] at h
    | cons b bs =>
      simp only [prefixCheck, Bool.and_eq_true] at h
      simp only [List.cons_append, prefixCheck, Bool.and_eq_true]
      exact ⟨h.1, ih bs h.2⟩

theorem strStartsWith_append (s t p : String) (h : strStartsWith s p = true) :
    strStartsWith (s ++ t) p = true := by
  unfold strStartsWith at h ⊢
  rw [string_data_append]
  exact prefixCheck_append _ _ _ h

theorem ne_of_strStartsWith (a b p : String) (ha : strStartsWith a p = true)
    (hb : strStartsWith b p = false) : b ≠ a := by
  intro h
  rw [h, ha] at hb
  exact Bool.noConfusion hb

/-! ## Node.js posix path functions

Embeddings of `path.dirname`, `path.normalize` and `path.join` (posix
behaviour, as on the Linux host the sources run on), used by
`validateImports` in `src/lib/appGenerator.ts` to resolve relative imports.
Segments are processed as character lists.
-/

/-- Embedding of JavaScript `p.split('/')` on the character list. -/
def splitSlash : List Char → List (List Char)
  | [] => [[]]
  | c :: rest =>
    if c = '/' then [] :: splitSlash rest
    else
      match splitSlash rest with
      | [] => [[c]]
      | g :: gs => (c :: g) :: gs

/-- Joins segments with `/` between them. -/
def joinSlash : List (List Char) → List Char
  | [] => []
  | [g] => g
  | g :: h :: gs => g ++ '/' :: joinSlash (h :: gs)

/-- One step of Node's `normalizeString` segment resolution: empty and `.`
segments are dropped; `..` pops the previous segment when it exists and is not
itself `..`, and otherwise is kept only for relative paths
(`allowAbove = true`). -/
def normStep (allowAbove : Bool) (acc : List (List Char)) (seg : List Char) :
    List (List Char) :=
  if seg = [] ∨ seg = ['.'] then acc
  else if seg = ['.', '.'] then
    match acc.getLast? with
    | some s => if s ≠ ['.', '.'] then acc.dropLast
                else (if allowAbove then acc ++ [seg] else acc)
    | none => if allowAbove then [seg] else []
  else acc ++ [seg]

/-- Embedding of `path.posix.normalize`. -/
def posixNormalize (p : String) : String :=
  if p.data.isEmpty then "."
  else
    let isAbs := prefixCheck ['/'] p.data
    let trailing := prefixCheck ['/'] p.data.reverse
    let resolved := (splitSlash p.data).foldl (normStep (!isAbs)) []
    let body := joinSlash resolved
    if body.isEmpty then
      if isAbs then "/" else if trailing then "./" else "."
    else
      let body := if trailing then body ++ ['/'] else body
      String.mk (if isAbs then '/' :: body else body)

/-- Embedding of `path.posix.join` on two arguments: the non-empty parts are
joined with `/` and the result normalized; with no parts the result is `.`. -/
def posixJoin (a b : String) : String :=
  let parts := ([a, b].map String.data).filter (fun l => !l.isEmpty)
  if parts.isEmpty then "." else posixNormalize (String.mk (joinSlash parts))

/-- Embedding of `path.posix.dirname`: trailing separators are ignored, the
basename is cut at the last remaining separator; with no separator left the
result is `.` (or `/` for an absolute path). -/
def dirname (p : String) : String :=
  let cs := p.data
  if cs.isEmpty then "."
  else
    let hasRoot := cs.head? = some '/'
    let rev1 := cs.reverse.dropWhile (fun c => c = '/')
    let m := rev1.dropWhile (fun c => c ≠ '/')
    if m.length ≤ 1 then (if hasRoot then "/" else ".")
    else if hasRoot && m.length = 2 then "//"
    else String.mk (cs.take (m.length - 1))

/-! ## FileSet Validator (`validateImports`, src/lib/appGenerator.ts)

A FileSet entry pairs a relative file path with the list of module specifiers
the import regex (`import ... from '<spec>'`) extracts from its content; the
claims under study quantify over these extracted references, so the file
content is represented by exactly that list. The keys of the FileSet are the
entry paths.
-/

/-- A generated FileSet: relative path together with the import specifiers
extracted from the file's content. -/
abbrev FileSet := List (String × List String)

/-- The keys of the FileSet (the generated relative paths). -/
def fileKeys (files : FileSet) : List String :=
  files.map Prod.fst

/-- The validator only scans TypeScript files:
`filePath.endsWith('.tsx') || filePath.endsWith('.ts')`. -/
def isScanned (filePath : String) : Bool :=
  strEndsWith filePath ".tsx" || strEndsWith filePath ".ts"

/-- The validator's guard selecting the references it checks:
`importPath.startsWith('@/') || (importPath.startsWith('.') && !importPath.startsWith('@/'))`.
Everything else is an external package and is skipped. -/
def isInternalRef (importPath : String) : Bool :=
  strStartsWith importPath "@/" ||
    (strStartsWith importPath "." && !strStartsWith importPath "@/")

/-- Single-character replacement embedding `.replace(/\\/g, '/')`. -/
def replaceBackslashes (s : String) : String :=
  String.mk (s.data.map (fun c => if c = '\\' then '/' else c))

/-- The normalized project path of a reference: an alias `@/` import drops the
prefix (`importPath.replace('@/', '')`, whose first occurrence is at position
0 because of the guard); a relative import is joined against the importing
file's directory and normalized
(`path.normalize(path.join(path.dirname(filePath), importPath)).replace(/\\/g, '/')`). -/
def normalizedImport (filePath importPath : String) : String :=
  if strStartsWith importPath "@/" then
    importPath.drop 2
  else
    replaceBackslashes (posixNormalize (posixJoin (dirname filePath) importPath))

/-- The candidate keys tried for one reference: the normalized path with
`.tsx`, `.ts`, `/index.tsx` and `/index.ts` appended; for a reference ending
in `.css` the bare normalized path is additionally tried (unshifted to the
front). -/
def importCandidates (filePath importPath : String) : List String :=
  let n := normalizedImport filePath importPath
  let base := [n ++ ".tsx", n ++ ".ts", n ++ "/index.tsx", n ++ "/index.ts"]
  if strEndsWith importPath ".css" then n :: base else base

/-- A reference is resolved when some candidate is a key of the FileSet
(`files[ext] !== undefined`). -/
def refResolved (files : FileSet) (filePath importPath : String) : Bool :=
  (importCandidates filePath importPath).any (fun c => (fileKeys files).contains c)

/-- The message pushed for an unresolved reference:
`${filePath} imports ${importPath} but file not found`. -/
def missingMsg (filePath importPath : String) : String :=
  filePath ++ " imports " ++ importPath ++ " but file not found"

/-- The accumulated `missingImports` list: for every scanned file, every
internal reference with no candidate among the keys, in file order then
reference order. -/
def missingImports (files : FileSet) : List String :=
  (files.map (fun e =>
    if isScanned e.1 then
      (e.2.filter (fun r => isInternalRef r && !refResolved files e.1 r)).map
        (missingMsg e.1)
    else [])).flatten

/-- Embedding of `validateImports`: throws
`Cannot deploy app with missing imports: <list joined by ', '>` when any
reference is missing, otherwise succeeds. -/
def validateImports (files : FileSet) : Except String Unit :=
  let missing := missingImports files
  if missing.isEmpty then Except.ok ()
  else Except.error ("Cannot deploy app with missing imports: " ++ joinWith ", " missing)

example : dirname "app/page.tsx" = "app" := by decide
example : dirname "page.tsx" = "." := by decide
example : dirname "/a" = "/" := by decide
example : posixNormalize "a/../b" = "b" := by decide
example : posixNormalize "a/.." = "." := by decide
example : posixNormalize "../a" = "../a" := by decide
example : posixNormalize "a/b/../../../c" = "../c" := by decide
example : posixJoin "app" "../components/Button" = "components/Button" := by decide
example : posixJoin "." "./x" = "x" := by decide

example :
    validateImports [("app/page.tsx", ["@/components/Hero", "react"]),
      ("components/Hero.tsx", [])] = Except.ok () := by rfl

example :
    validateImports [("app/page.tsx", ["@/components/Missing"])] =
      Except.error ("Cannot deploy app with missing imports: " ++
        "app/page.tsx imports @/components/Missing but file not found") := by rfl

example :
    validateImports [("app/page.tsx", ["./x", "fancy-lib"]), ("app/x.tsx", [])] =
      Except.ok () := by rfl

example :
    validateImports [("app/layout.tsx", ["@/app/globals.css"]),
      ("app/globals.css", [])] = Except.ok () := by rfl

/-! ## Validator lemmas and claims -/

theorem missingImports_eq_nil_iff (files : FileSet) :
    missingImports files = [] ↔
      ∀ e ∈ files, isScanned e.1 = true → ∀ r ∈ e.2, isInternalRef r = true →
        refResolved files e.1 r = true := by
  unfold missingImports
  rw [List.flatten_eq_nil_iff]
  constructor
  · intro h e he hs r hr hint
    have := h _ (List.mem_map_of_mem _ he)
    rw [hs] at this
    simp only [if_true] at this
    rw [List.map_eq_nil_iff, List.filter_eq_nil_iff] at this
    have := this r hr
    by_contra hres
    rw [Bool.not_eq_true] at hres
    exact this (by rw [hint, hres]; rfl)
  · intro h l hl
    rw [List.mem_map] at hl
    obtain ⟨e, he, rfl⟩ := hl
    by_cases hs : isScanned e.1 = true
    · rw [hs]
      simp only [if_true, List.map_eq_nil_iff, List.filter_eq_nil_iff]
      intro r hr hbad
      rw [Bool.and_eq_true] at hbad
      have := h e he hs r hr hbad.1
      rw [this] at hbad
      exact Bool.noConfusion hbad.2
    · rw [Bool.not_eq_true] at hs
      rw [hs]
      rfl

theorem missingMsg_mem (files : FileSet) (e : String × List String) (r : String)
    (he : e ∈ files) (hs : isScanned e.1 = true) (hr : r ∈ e.2)
    (hint : isInternalRef r = true) (hres : refResolved files e.1 r = false) :
    missingMsg e.1 r ∈ missingImports files := by
  unfold missingImports
  rw [List.mem_flatten]
  refine ⟨(fun e => if isScanned e.1 = true then
      (e.2.filter (fun r => isInternalRef r && !refResolved files e.1 r)).map
        (missingMsg e.1) else []) e, List.mem_map_of_mem _ he, ?_⟩
  simp only [hs, if_true]
  exact List.mem_map_of_mem _ (List.mem_filter.2 ⟨hr, by rw [hint, hres]; rfl⟩)

theorem missingImports_provenance (files : FileSet) (m : String)
    (hm : m ∈ missingImports files) :
    ∃ e ∈ files, ∃ r ∈ e.2, isScanned e.1 = true ∧ isInternalRef r = true ∧
      refResolved files e.1 r = false ∧ m = missingMsg e.1 r := by
  unfold missingImports at hm
  rw [List.mem_flatten] at hm
  obtain ⟨l, hl, hml⟩ := hm
  rw [List.mem_map] at hl
  obtain ⟨e, he, rfl⟩ := hl
  by_cases hs : isScanned e.1 = true
  · rw [hs] at hml
    simp only [if_true, List.mem_map] at hml
    obtain ⟨r, hrf, rfl⟩ := hml
    rw [List.mem_filter, Bool.and_eq_true, Bool.not_eq_true'] at hrf
    exact ⟨e, he, r, hrf.1, hs, hrf.2.1, hrf.2.2, rfl⟩
  · rw [Bool.not_eq_true] at hs
    rw [hs] at hml
    simp at hml

theorem validateImports_ok_iff (files : FileSet) :
    validateImports files = Except.ok () ↔ missingImports files = [] := by
  unfold validateImports
  by_cases h : (missingImports files).isEmpty
  · rw [List.isEmpty_iff] at h
    simp [h]
  · have h' : missingImports files ≠ [] := by
      intro hc
      rw [hc] at h
      exact h rfl
    rw [if_neg (by simpa [List.isEmpty_iff] using h')]
    simp [h']

theorem validateImports_error_of_missing (files : FileSet)
    (h : missingImports files ≠ []) :
    validateImports files =
      Except.error ("Cannot deploy app with missing imports: " ++
        joinWith ", " (missingImports files)) := by
  unfold validateImports
  rw [if_neg (by simpa [List.isEmpty_iff] using h)]

/-- C2: the Validator succeeds iff every relative or alias (`@/`) import in the
scanned source files resolves to a FileSet key through the candidate rules;
on failure the error lists each unresolved internal reference; and every
listed message originates from an internal (relative or alias) reference, so
an external-package reference never appears in the list. -/
theorem C2_validator_iff_all_internal_resolved (files : FileSet) :
    (validateImports files = Except.ok () ↔
      ∀ e ∈ files, isScanned e.1 = true → ∀ r ∈ e.2, isInternalRef r = true →
        refResolved files e.1 r = true) ∧
    (∀ e ∈ files, isScanned e.1 = true → ∀ r ∈ e.2, isInternalRef r = true →
      refResolved files e.1 r = false →
        missingMsg e.1 r ∈ missingImports files ∧
        validateImports files =
          Except.error ("Cannot deploy app with missing imports: " ++
            joinWith ", " (missingImports files))) ∧
    (∀ m ∈ missingImports files, ∃ e ∈ files, ∃ r ∈ e.2,
      isScanned e.1 = true ∧ isInternalRef r = true ∧
      refResolved files e.1 r = false ∧ m = missingMsg e.1 r) := by
  refine ⟨?_, ?_, missingImports_provenance files⟩
  · rw [validateImports_ok_iff]
    exact missingImports_eq_nil_iff files
  · intro e he hs r hr hint hres
    have hmem := missingMsg_mem files e r he hs hr hint hres
    refine ⟨hmem, validateImports_error_of_missing files ?_⟩
    intro hc
    rw [hc] at hmem
    exact (List.not_mem_nil _) hmem

/-- Witness for C2 at a concrete FileSet: `app/page.tsx` imports the alias
reference `@/components/Missing` (unresolved) and the external package
`react`; the validator fails listing exactly the internal reference. -/
theorem C2_witness :
    validateImports [("app/page.tsx", ["@/components/Missing", "react"])] =
      Except.error ("Cannot deploy app with missing imports: " ++
        joinWith ", " (missingImports
          [("app/page.tsx", ["@/components/Missing", "react"])])) := by
  have h := (C2_validator_iff_all_internal_resolved
    [("app/page.tsx", ["@/components/Missing", "react"])]).2.1
    ("app/page.tsx", ["@/components/Missing", "react"])
    (by decide) (by decide) "@/components/Missing" (by decide) (by decide) (by decide)
  exact h.2

/-- C3 counterexample: for the non-CSS alias reference `@/components/Button`
the exact normalized path `components/Button` is not among the code's
candidates, so a FileSet that provides exactly that key (as the claim's
candidate set would require) still fails validation. -/
theorem C3_counterexample :
    ("components/Button" ∉ importCandidates "app/page.tsx" "@/components/Button") ∧
    refResolved [("app/page.tsx", ["@/components/Button"]), ("components/Button", [])]
      "app/page.tsx" "@/components/Button" = false ∧
    validateImports
        [("app/page.tsx", ["@/components/Button"]), ("components/Button", [])] =
      Except.error ("Cannot deploy app with missing imports: " ++
        "app/page.tsx imports @/components/Button but file not found") := by
  exact ⟨by decide, by decide, by rfl⟩

/-- C3 (amended): the candidate set is the normalized path with `.tsx`, `.ts`,
`/index.tsx` and `/index.ts` appended; the bare normalized path is a candidate
exactly when the reference ends in `.css` (placed first); the reference
resolves iff at least one candidate is a key of the FileSet. -/
theorem C3_candidate_set (files : FileSet) (filePath importPath : String) :
    importCandidates filePath importPath =
      (if strEndsWith importPath ".css" = true
        then [normalizedImport filePath importPath] else []) ++
      [normalizedImport filePath importPath ++ ".tsx",
       normalizedImport filePath importPath ++ ".ts",
       normalizedImport filePath importPath ++ "/index.tsx",
       normalizedImport filePath importPath ++ "/index.ts"] ∧
    (refResolved files filePath importPath = true ↔
      ∃ c ∈ importCandidates filePath importPath, c ∈ fileKeys files) := by
  constructor
  · unfold importCandidates
    by_cases h : strEndsWith importPath ".css" = true
    · simp [h]
    · rw [Bool.not_eq_true] at h
      simp [h]
  · unfold refResolved
    rw [List.any_eq_true]
    constructor
    · rintro ⟨c, hc, hcont⟩
      refine ⟨c, hc, ?_⟩
      simpa [List.contains] using hcont
    · rintro ⟨c, hc, hmem⟩
      refine ⟨c, hc, ?_⟩
      simpa [List.contains] using hmem

/-- C10: a relative import whose resolution against the importing file's
directory normalizes to a path escaping the project root (starting with `..`)
is always reported as unresolved, provided no FileSet key starts with `..`
(the root-relative key invariant the claim assumes): every candidate extends
the normalized path and hence also starts with `..`. -/
theorem C10_escaping_relative_unresolved (files : FileSet)
    (filePath importPath : String) (refs : List String)
    (hmem : (filePath, refs) ∈ files) (hscan : isScanned filePath = true)
    (hrefs : importPath ∈ refs)
    (hrel : strStartsWith importPath "." = true)
    (hnotalias : strStartsWith importPath "@/" = false)
    (hesc : strStartsWith (normalizedImport filePath importPath) ".." = true)
    (hkeys : ∀ k ∈ fileKeys files, strStartsWith k ".." = false) :
    refResolved files filePath importPath = false ∧
    missingMsg filePath importPath ∈ missingImports files ∧
    validateImports files =
      Except.error ("Cannot deploy app with missing imports: " ++
        joinWith ", " (missingImports files)) := by
  have hint : isInternalRef importPath = true := by
    simp [isInternalRef, hrel, hnotalias]
  have hcand : ∀ c ∈ importCandidates filePath importPath,
      strStartsWith c ".." = true := by
    intro c hc
    unfold importCandidates at hc
    by_cases hcss : strEndsWith importPath ".css" = true
    · rw [hcss] at hc
      simp only [if_true, List.mem_cons, List.mem_singleton, List.mem_nil_iff, or_false] at hc
      rcases hc with rfl | rfl | rfl | rfl | rfl
      · exact hesc
      all_goals exact strStartsWith_append _ _ _ hesc
    · rw [Bool.not_eq_true] at hcss
      rw [hcss] at hc
      simp only [Bool.false_eq_true, if_false, List.mem_cons, List.mem_singleton, List.mem_nil_iff, or_false] at hc
      rcases hc with rfl | rfl | rfl | rfl
      all_goals exact strStartsWith_append _ _ _ hesc
  have hres : refResolved files filePath importPath = false := by
    unfold refResolved
    rw [List.any_eq_false]
    intro c hc
    have hcpre := hcand c hc
    rw [Bool.not_eq_true, Bool.eq_false_iff]
    intro hcont
    have hcmem : c ∈ fileKeys files := by
      simpa [List.contains] using hcont
    have := hkeys c hcmem
    rw [hcpre] at this
    exact Bool.noConfusion this
  have hmsg : missingMsg filePath importPath ∈ missingImports files :=
    missingMsg_mem files (filePath, refs) importPath hmem hscan hrefs hint hres
  refine ⟨hres, hmsg, validateImports_error_of_missing files ?_⟩
  intro hc
  rw [hc] at hmsg
  exact (List.not_mem_nil _) hmsg

/-- Witness for C10: `app/page.tsx` imports `../../styles/theme`, which
normalizes to `../styles/theme`; even though `styles/theme.tsx` is generated,
the reference is reported as unresolved. -/
theorem C10_witness :
    refResolved [("app/page.tsx", ["../../styles/theme"]), ("styles/theme.tsx", [])]
      "app/page.tsx" "../../styles/theme" = false ∧
    missingMsg "app/page.tsx" "../../styles/theme" ∈
      missingImports [("app/page.tsx", ["../../styles/theme"]), ("styles/theme.tsx", [])] := by
  have h := C10_escaping_relative_unresolved
    [("app/page.tsx", ["../../styles/theme"]), ("styles/theme.tsx", [])]
    "app/page.tsx" "../../styles/theme" ["../../styles/theme"]
    (by decide) (by decide) (by decide) (by decide) (by decide) (by decide) (by decide)
  exact ⟨h.1, h.2.1⟩

/-! ## Data model (src/lib/types.ts) -/

/-- One app specification (`AppSpecification`). -/
structure AppSpecification where
  name : String
  description : String := ""
  app_goal : String := ""
  target_user : String := ""
  main_problem : String := ""
  design_preferences : String := ""
  additional_requirements : Option String := none
  tech_stack : Option String := none
  complexity_level : Option String := none
  deriving DecidableEq, Repr

/-- The per-job deployment status recorded in a `GenerationResult`. -/
inductive DeployStatus where
  | pending
  | deploying
  | deployed
  | failed
  deriving DecidableEq, Repr

/-- Outcome of one Generation Job (`GenerationResult`), including the optional
deployment fields `generateApp` fills in. -/
structure GenerationResult where
  success : Bool
  app_name : String
  output_directory : Option String := none
  files_created : Option (List String) := none
  error : Option String := none
  generation_time : String
  deployment_url : Option String := none
  deployment_status : Option DeployStatus := none
  deriving DecidableEq, Repr

/-- Outcome of one deployment attempt (`DeploymentResult`,
src/lib/vercelDeployer.ts). -/
structure DeploymentResult where
  success : Bool
  url : Option String := none
  error : Option String := none
  appName : String
  deploymentId : Option String := none
  deriving DecidableEq, Repr

/-! ## Generation Job (`AppGenerator.generateApp`, src/lib/appGenerator.ts)

Every effectful step of `generateApp` is an oracle field: directory creation,
the Claude generation call (already decoded into a FileSet; decode failures
only blank individual file contents and never throw), the file writes, the
Vercel-config fixups, the deployment call and the final directory listing.
`validateImports` is the pure function embedded above. The clock is the
`failTime`/`endTime` fields. The second component of the returned pair
records whether the Deployment Controller was invoked.
-/

/-- Oracle environment for one `generateApp` run. -/
structure GenEnv where
  mkdirResult : Except String Unit
  claudeResult : Except String FileSet
  writeResult : Except String Unit
  configResult : Except String Unit
  deployResult : Except String DeploymentResult
  allFilesResult : Except String (List String)
  endTime : String
  failTime : String

/-- Embedding of `spec.tech_stack?.toLowerCase().includes('react')` (an absent tech stack
is falsy). -/
def techIsReact (spec : AppSpecification) : Bool :=
  match spec.tech_stack with
  | some t => strContains (asciiLower t) "react"
  | none => false

/-- The filesystem-safe directory name:
`spec.name.toLowerCase().replace(/[^a-z0-9]/g, '_')`. -/
def appDirName (name : String) : String :=
  String.mk ((asciiLower name).data.map (fun c =>
    if ('a' ≤ c ∧ c ≤ 'z') ∨ ('0' ≤ c ∧ c ≤ '9') then c else '_'))

/-- The failed `GenerationResult` built by `generateApp`'s outer catch:
`{success: false, app_name, error, generation_time}`. -/
def failedResult (spec : AppSpecification) (msg : String) (time : String) :
    GenerationResult :=
  { success := false
    app_name := spec.name
    error := some msg
    generation_time := time }

/-- Embedding of `generateApp`: creates the app directory, generates and writes the files,
validates imports, applies the Vercel config fixups for React apps, then (when
deployment is enabled and the app is React) calls the Deployment Controller
inside an inner try/catch whose failure only marks `deployment_status:
'failed'`; any other failing step is converted by the outer catch into a
failed result. The Bool component records whether `deployer.deployApp` was
invoked. -/
def generateApp (outputDirectory : String) (enableDeployment : Bool)
    (spec : AppSpecification) (env : GenEnv) : GenerationResult × Bool :=
  match env.mkdirResult with
  | Except.error e => (failedResult spec e env.failTime, false)
  | Except.ok _ =>
    match env.claudeResult with
    | Except.error e => (failedResult spec e env.failTime, false)
    | Except.ok files =>
      match env.writeResult with
      | Except.error e => (failedResult spec e env.failTime, false)
      | Except.ok _ =>
        match validateImports files with
        | Except.error e => (failedResult spec e env.failTime, false)
        | Except.ok _ =>
          match (if techIsReact spec then env.configResult else Except.ok ()) with
          | Except.error e => (failedResult spec e env.failTime, false)
          | Except.ok _ =>
            let deployCalled := enableDeployment && techIsReact spec
            let deployFields : Option String × DeployStatus :=
              if deployCalled then
                match env.deployResult with
                | Except.error _ => (none, DeployStatus.failed)
                | Except.ok dr =>
                  if dr.success && dr.url.isSome then (dr.url, DeployStatus.deployed)
                  else (none, DeployStatus.failed)
              else (none, DeployStatus.pending)
            match env.allFilesResult with
            | Except.error e => (failedResult spec e env.failTime, deployCalled)
            | Except.ok allFiles =>
              ({ success := true
                 app_name := spec.name
                 output_directory :=
                   some (outputDirectory ++ "/" ++ appDirName spec.name)
                 files_created := some allFiles
                 error := none
                 generation_time := env.endTime
                 deployment_url := deployFields.1
                 deployment_status := some deployFields.2 }, deployCalled)

/-! ### Generation Job claims -/

/-- C4: `generateApp` never raises (it is a total function into
`GenerationResult`): a non-successful result always carries an error message
and the failure timestamp, and each step failure — directory creation,
generation-service call, file writes, import validation — is converted into
exactly the failed result built from its message. -/
theorem C4_generateApp_never_raises (outDir : String) (enable : Bool)
    (spec : AppSpecification) (env : GenEnv) :
    ((generateApp outDir enable spec env).1.success = false →
      (generateApp outDir enable spec env).1.error.isSome = true ∧
      (generateApp outDir enable spec env).1.generation_time = env.failTime) ∧
    (∀ e, env.mkdirResult = Except.error e →
      (generateApp outDir enable spec env).1 = failedResult spec e env.failTime) ∧
    (∀ e, env.mkdirResult = Except.ok () → env.claudeResult = Except.error e →
      (generateApp outDir enable spec env).1 = failedResult spec e env.failTime) ∧
    (∀ e files, env.mkdirResult = Except.ok () →
      env.claudeResult = Except.ok files → env.writeResult = Except.error e →
      (generateApp outDir enable spec env).1 = failedResult spec e env.failTime) ∧
    (∀ m files, env.mkdirResult = Except.ok () →
      env.claudeResult = Except.ok files → env.writeResult = Except.ok () →
      validateImports files = Except.error m →
      (generateApp outDir enable spec env).1 = failedResult spec m env.failTime) := by
  refine ⟨?_, ?_, ?_, ?_, ?_⟩
  · intro hfail
    cases hmk : env.mkdirResult with
    | error e => simp [generateApp, hmk, failedResult]
    | ok u =>
      cases hcl : env.claudeResult with
      | error e => simp [generateApp, hmk, hcl, failedResult]
      | ok files =>
        cases hwr : env.writeResult with
        | error e => simp [generateApp, hmk, hcl, hwr, failedResult]
        | ok v =>
          cases hval : validateImports files with
          | error m => simp [generateApp, hmk, hcl, hwr, hval, failedResult]
          | ok w =>
            cases hcf : (if techIsReact spec then env.configResult else Except.ok ()) with
            | error e => simp [generateApp, hmk, hcl, hwr, hval, hcf, failedResult]
            | ok x =>
              cases haf : env.allFilesResult with
              | error e => simp [generateApp, hmk, hcl, hwr, hval, hcf, haf, failedResult]
              | ok fl =>
                exfalso
                simp [generateApp, hmk, hcl, hwr, hval, hcf, haf] at hfail
  · intro e hmk
    simp [generateApp, hmk, failedResult]
  · intro e hmk hcl
    simp [generateApp, hmk, hcl, failedResult]
  · intro e files hmk hcl hwr
    simp [generateApp, hmk, hcl, hwr, failedResult]
  · intro m files hmk hcl hwr hval
    simp [generateApp, hmk, hcl, hwr, hval, failedResult]

/-- A specification used by the concrete witnesses. -/
def demoSpec : AppSpecification :=
  { name := "demo app", tech_stack := some "React" }

/-- An environment in which the generation-service call fails. -/
def envClaudeFail : GenEnv :=
  { mkdirResult := Except.ok ()
    claudeResult := Except.error "Claude API error"
    writeResult := Except.ok ()
    configResult := Except.ok ()
    deployResult := Except.ok { success := true, appName := "demo app" }
    allFilesResult := Except.ok []
    endTime := "2024-01-01T00:00:10.000Z"
    failTime := "2024-01-01T00:00:05.000Z" }

/-- Witness for C4: a failed generation-service call is returned as a failed
result with that message and the failure timestamp. -/
theorem C4_witness :
    (generateApp "public/generated_apps" true demoSpec envClaudeFail).1 =
      failedResult demoSpec "Claude API error" "2024-01-01T00:00:05.000Z" :=
  (C4_generateApp_never_raises "public/generated_apps" true demoSpec
    envClaudeFail).2.2.1 "Claude API error" rfl rfl

/-- C5: when the generated FileSet contains an unresolved relative or alias
import, the job returns `success: false` with the aggregated import-error
message (in which the unresolved reference's entry occurs), and the
Deployment Controller is never invoked. -/
theorem C5_unresolved_import_fails_job (outDir : String) (enable : Bool)
    (spec : AppSpecification) (env : GenEnv) (files : FileSet)
    (e : String × List String) (r : String)
    (hmk : env.mkdirResult = Except.ok ())
    (hcl : env.claudeResult = Except.ok files)
    (hwr : env.writeResult = Except.ok ())
    (he : e ∈ files) (hs : isScanned e.1 = true) (hr : r ∈ e.2)
    (hint : isInternalRef r = true) (hres : refResolved files e.1 r = false) :
    (generateApp outDir enable spec env).1.success = false ∧
    (generateApp outDir enable spec env).1.error =
      some ("Cannot deploy app with missing imports: " ++
        joinWith ", " (missingImports files)) ∧
    missingMsg e.1 r ∈ missingImports files ∧
    (generateApp outDir enable spec env).2 = false := by
  have hmsg := missingMsg_mem files e r he hs hr hint hres
  have hne : missingImports files ≠ [] := by
    intro hc
    rw [hc] at hmsg
    exact (List.not_mem_nil _) hmsg
  have hval := validateImports_error_of_missing files hne
  refine ⟨?_, ?_, hmsg, ?_⟩ <;>
    simp [generateApp, hmk, hcl, hwr, hval, failedResult]

/-- The FileSet of the C5 witness: `app/page.tsx` imports
`@/components/Missing` and no corresponding file was generated. -/
def filesMissing : FileSet := [("app/page.tsx", ["@/components/Missing"])]

/-- An environment whose generation call produced `filesMissing` and in which
every filesystem step succeeds. -/
def envMissing : GenEnv :=
  { mkdirResult := Except.ok ()
    claudeResult := Except.ok filesMissing
    writeResult := Except.ok ()
    configResult := Except.ok ()
    deployResult := Except.ok { success := true, appName := "demo app" }
    allFilesResult := Except.ok ["app/page.tsx"]
    endTime := "2024-01-01T00:00:10.000Z"
    failTime := "2024-01-01T00:00:05.000Z" }

/-- Witness for C5 at the concrete missing-import FileSet. -/
theorem C5_witness :
    (generateApp "public/generated_apps" true demoSpec envMissing).1.success = false ∧
    (generateApp "public/generated_apps" true demoSpec envMissing).1.error =
      some ("Cannot deploy app with missing imports: " ++
        joinWith ", " (missingImports filesMissing)) ∧
    missingMsg "app/page.tsx" "@/components/Missing" ∈ missingImports filesMissing ∧
    (generateApp "public/generated_apps" true demoSpec envMissing).2 = false :=
  C5_unresolved_import_fails_job "public/generated_apps" true demoSpec envMissing
    filesMissing ("app/page.tsx", ["@/components/Missing"]) "@/components/Missing"
    rfl rfl rfl (by decide) (by decide) (by decide) (by decide) (by decide)

/-- C9: once generation, persistence and validation succeeded (and the final
directory listing succeeds), a deployment failure — the Deployment Controller
returning an unsuccessful result (or one without a URL) or throwing — never
fails the job: the result still has `success: true`, with
`deployment_status: 'failed'` recording the failure. -/
theorem C9_deploy_failure_keeps_success (outDir : String)
    (spec : AppSpecification) (env : GenEnv) (files : FileSet)
    (hmk : env.mkdirResult = Except.ok ())
    (hcl : env.claudeResult = Except.ok files)
    (hwr : env.writeResult = Except.ok ())
    (hval : validateImports files = Except.ok ())
    (hcf : env.configResult = Except.ok ())
    (haf : ∃ fl, env.allFilesResult = Except.ok fl)
    (hreact : techIsReact spec = true)
    (hdep : (∃ e, env.deployResult = Except.error e) ∨
      (∃ dr, env.deployResult = Except.ok dr ∧ (dr.success && dr.url.isSome) = false)) :
    (generateApp outDir true spec env).1.success = true ∧
    (generateApp outDir true spec env).1.deployment_status =
      some DeployStatus.failed := by
  obtain ⟨fl, haf⟩ := haf
  rcases hdep with ⟨e, hdep⟩ | ⟨dr, hdep, hdr⟩
  · simp [generateApp, hmk, hcl, hwr, hval, hreact, hcf, haf, hdep]
  · simp [generateApp, hmk, hcl, hwr, hval, hreact, hcf, haf, hdep, hdr]

/-- A FileSet whose single import resolves. -/
def filesOk : FileSet := [("app/page.tsx", ["@/components/Hero"]), ("components/Hero.tsx", [])]

/-- An environment where everything succeeds except the deployment call,
which throws. -/
def envDeployFail : GenEnv :=
  { mkdirResult := Except.ok ()
    claudeResult := Except.ok filesOk
    writeResult := Except.ok ()
    configResult := Except.ok ()
    deployResult := Except.error "Deployment failed: 403 Forbidden"
    allFilesResult := Except.ok ["app/page.tsx", "components/Hero.tsx"]
    endTime := "2024-01-01T00:00:10.000Z"
    failTime := "2024-01-01T00:00:05.000Z" }

/-- Witness for C9: a throwing deployment leaves the job successful with the
deployment status recording the failure. -/
theorem C9_witness :
    (generateApp "public/generated_apps" true demoSpec envDeployFail).1.success = true ∧
    (generateApp "public/generated_apps" true demoSpec envDeployFail).1.deployment_status =
      some DeployStatus.failed :=
  C9_deploy_failure_keeps_success "public/generated_apps" demoSpec envDeployFail
    filesOk rfl rfl rfl (by rfl) rfl ⟨["app/page.tsx", "components/Hero.tsx"], rfl⟩
    (by decide) (Or.inl ⟨"Deployment failed: 403 Forbidden", rfl⟩)

/-! ## Deployment Controller (`VercelDeployer`)

The repository contains two variants of the deployer: `src/lib/vercelDeployer.ts`
(whose `createDeployment` awaits `waitForDeployment`, a 30 × 10 s readiness
loop that throws on timeout) and the variant captured in `src/unnamed/part_005`
(whose `createDeployment` returns as soon as the deployment is accepted and
starts the unawaited `checkDeploymentStatus` monitor, 20 × 10 s). Both share
`deployApp`, `deployWithCLI`, `createOrGetProject` and `createDemoDeployment`.
Remote responses, the child process and the clock are oracle fields.
-/

/-- Oracle environment for one deployer run. `statusResp i` is the response of
the `i`-th status poll (thrown error, or `(response.ok, readyState)`);
`cliResult` is the `npx vercel` outcome (thrown error, or the stderr text and
the `https://...vercel.app` match extracted from stdout). -/
structure VercelEnv where
  getProjectResp : Except String (Bool × String)
  createProjectResp : Except String (Bool × String × String)
  deployResp : Except String (Bool × String × String × String)
  statusResp : Nat → Except String (Bool × String)
  cliResult : Except String (String × Option String)
  nowId : String
  randId : String

/-- Embedding of `appName.toLowerCase().replace(/[^a-z0-9]/g, '-')`. -/
def sanitizeProjectName (name : String) : String :=
  String.mk ((asciiLower name).data.map (fun c =>
    if ('a' ≤ c ∧ c ≤ 'z') ∨ ('0' ≤ c ∧ c ≤ '9') then c else '-'))

/-- Embedding of `createOrGetProject`: returns the existing project's id when the GET
succeeds, otherwise creates the project, throwing
`Failed to create project: <statusText>` when the creation response is not
ok; fetch-level errors propagate. -/
def createOrGetProject (env : VercelEnv) : Except String String :=
  match env.getProjectResp with
  | Except.error e => Except.error e
  | Except.ok (ok, pid) =>
    if ok then Except.ok pid
    else
      match env.createProjectResp with
      | Except.error e => Except.error e
      | Except.ok (ok2, pid2, statusText) =>
        if ok2 then Except.ok pid2
        else Except.error ("Failed to create project: " ++ statusText)

/-- The readiness-wait loop of `src/lib/vercelDeployer.ts`
(`waitForDeployment`): polls up to `fuel` times starting at poll index `i`,
returns when a poll has `response.ok` and `readyState === 'READY'`, throws
the timeout error after exhausting its attempts; a throwing fetch
propagates. -/
def waitLoop (env : VercelEnv) : Nat → Nat → Except String Unit
  | _, 0 => Except.error "Deployment timeout - took longer than 5 minutes"
  | i, f + 1 =>
    match env.statusResp i with
    | Except.error e => Except.error e
    | Except.ok (ok, st) =>
      if ok && st == "READY" then Except.ok () else waitLoop env (i + 1) f

/-- Embedding of `waitForDeployment` of `src/lib/vercelDeployer.ts`: 30 polls of 10 s. -/
def waitForDeployment (env : VercelEnv) : Except String Unit :=
  waitLoop env 0 30

/-- Embedding of `createDeployment` of `src/lib/vercelDeployer.ts`: posts the deployment
and, when it is accepted, awaits `waitForDeployment` before returning the
URL; a rejected post throws `Deployment failed: <body>`. -/
def createDeployment (env : VercelEnv) : Except String String :=
  match env.deployResp with
  | Except.error e => Except.error e
  | Except.ok (ok, url, _, errBody) =>
    if ok then
      match waitForDeployment env with
      | Except.error e => Except.error e
      | Except.ok _ => Except.ok ("https://" ++ url)
    else Except.error ("Deployment failed: " ++ errBody)

/-- Embedding of `createDeployment` of the `part_005` variant: returns the URL as soon as
the deployment is accepted; the background monitor is started without being
awaited, so the returned value involves no poll. -/
def createDeploymentBG (env : VercelEnv) : Except String String :=
  match env.deployResp with
  | Except.error e => Except.error e
  | Except.ok (ok, url, _, errBody) =>
    if ok then Except.ok ("https://" ++ url)
    else Except.error ("Deployment failed: " ++ errBody)

/-- Outcome of the background monitor (`checkDeploymentStatus`,
`part_005`). -/
inductive MonitorOutcome where
  | ready (attempt : Nat)
  | buildFailed (state : String) (attempt : Nat)
  | exhausted
  deriving DecidableEq, Repr

/-- The monitor loop of `checkDeploymentStatus`, instrumented with the number
of polls performed: a poll whose fetch throws or whose response is not ok is
logged and skipped; `READY` stops with success; `ERROR`/`CANCELED` stop with
failure; exhausting the fuel stops with a timeout log. -/
def monitorLoop (env : VercelEnv) : Nat → Nat → MonitorOutcome × Nat
  | _, 0 => (MonitorOutcome.exhausted, 0)
  | i, f + 1 =>
    match env.statusResp i with
    | Except.error _ =>
      let r := monitorLoop env (i + 1) f
      (r.1, r.2 + 1)
    | Except.ok (ok, st) =>
      if ok then
        if st == "READY" then (MonitorOutcome.ready i, 1)
        else if st == "ERROR" || st == "CANCELED" then (MonitorOutcome.buildFailed st i, 1)
        else
          let r := monitorLoop env (i + 1) f
          (r.1, r.2 + 1)
      else
        let r := monitorLoop env (i + 1) f
        (r.1, r.2 + 1)

/-- Embedding of `checkDeploymentStatus` (`part_005`): up to 20 polls of 10 s (~200 s). -/
def checkDeploymentStatus (env : VercelEnv) : MonitorOutcome × Nat :=
  monitorLoop env 0 20

/-- Embedding of `createDemoDeployment`: the always-successful demo-mode fallback with the
fixed `devshop.local` host suffix. -/
def createDemoDeployment (appName randId : String) : DeploymentResult :=
  { success := true
    url := some ("https://demo-" ++ sanitizeProjectName appName ++ "-preview.devshop.local")
    appName := appName
    deploymentId := some ("demo_" ++ randId) }

/-- Embedding of `deployWithVercelAPI`: project resolution followed by the deployment
post; any error in that pipeline is caught and answered with the demo
deployment. -/
def deployWithVercelAPI (env : VercelEnv) (appName : String) : DeploymentResult :=
  match (createOrGetProject env).bind (fun _ => createDeployment env) with
  | Except.ok url =>
    { success := true
      url := some url
      appName := appName
      deploymentId := some ("vercel_" ++ env.nowId) }
  | Except.error _ => createDemoDeployment appName env.randId

/-- Embedding of `deployWithCLI`: runs `npx vercel`; a thrown exec error propagates, a
non-warning stderr throws, a missing URL match throws, otherwise the matched
URL is returned as a success. -/
def deployWithCLI (env : VercelEnv) (appName : String) : Except String DeploymentResult :=
  match env.cliResult with
  | Except.error e => Except.error e
  | Except.ok (stderr, urlMatch) =>
    if stderr ≠ "" ∧ strContains stderr "Warning" = false then Except.error stderr
    else
      match urlMatch with
      | some u => Except.ok { success := true, url := some u, appName := appName }
      | none => Except.error "Could not extract deployment URL from Vercel output"

/-- Embedding of `deployApp`: with a (truthy) token the API strategy is used, otherwise the
CLI strategy; the surrounding catch converts a thrown CLI error into a
`success: false` result with that message. -/
def deployApp (vercelToken appName : String) (env : VercelEnv) : DeploymentResult :=
  if vercelToken ≠ "" then deployWithVercelAPI env appName
  else
    match deployWithCLI env appName with
    | Except.ok r => r
    | Except.error e => { success := false, error := some e, appName := appName }

/-! ### Deployment Controller claims -/

theorem strEndsWith_append (s t p : String) (h : strEndsWith t p = true) :
    strEndsWith (s ++ t) p = true := by
  unfold strEndsWith at h ⊢
  rw [string_data_append, List.reverse_append]
  exact prefixCheck_append _ _ _ h

/-- An environment whose `npx vercel` invocation throws (as it does with no
usable token) while every API response would have succeeded. -/
def envCLIFail : VercelEnv :=
  { getProjectResp := Except.ok (true, "prj_1")
    createProjectResp := Except.ok (true, "prj_1", "OK")
    deployResp := Except.ok (true, "myapp-abc.vercel.app", "dpl_1", "")
    statusResp := fun _ => Except.ok (true, "READY")
    cliResult := Except.error "npx: command not found"
    nowId := "1700000000000"
    randId := "k3j2h1g0" }

/-- C6 counterexample: with an absent token `deployApp` takes the CLI path,
whose failure is caught and returned as `success: false` with the thrown
message — not a demo-mode success, and with no URL at all. -/
theorem C6_counterexample :
    (deployApp "" "test app" envCLIFail).success = false ∧
    (deployApp "" "test app" envCLIFail).url = none ∧
    (deployApp "" "test app" envCLIFail).error = some "npx: command not found" := by
  exact ⟨by rfl, by rfl, by rfl⟩

/-- C6 (amended): `deployApp` never raises (it is a total function into
`DeploymentResult`). With an invalid (non-empty, remotely rejected) token the
API pipeline's failure is answered by the demo deployment: `success: true`
with a URL carrying the fixed `devshop.local` suffix. With an absent token the
CLI strategy is used instead, and its failure yields `success: false` with the
thrown message — no demo fallback. -/
theorem C6_token_fallback (token appName : String) (env : VercelEnv) :
    (∀ e, token ≠ "" →
      (createOrGetProject env).bind (fun _ => createDeployment env) = Except.error e →
      deployApp token appName env = createDemoDeployment appName env.randId ∧
      (deployApp token appName env).success = true ∧
      ∃ u, (deployApp token appName env).url = some u ∧
        strEndsWith u "devshop.local" = true) ∧
    (∀ e, token = "" → env.cliResult = Except.error e →
      deployApp token appName env =
        { success := false, error := some e, appName := appName }) := by
  constructor
  · intro e htok hpipe
    have h1 : deployApp token appName env = deployWithVercelAPI env appName := by
      simp [deployApp, htok]
    have h2 : deployWithVercelAPI env appName = createDemoDeployment appName env.randId := by
      simp [deployWithVercelAPI, hpipe]
    refine ⟨h1.trans h2, ?_, ?_⟩
    · rw [h1, h2]
      rfl
    · rw [h1, h2]
      refine ⟨"https://demo-" ++ sanitizeProjectName appName ++ "-preview.devshop.local",
        rfl, ?_⟩
      exact strEndsWith_append _ _ _ (by decide)
  · intro e htok hcli
    subst htok
    simp [deployApp, deployWithCLI, hcli]

/-- An environment in which a non-empty token is rejected by the remote API
(the project GET is not ok and the project creation is forbidden). -/
def envInvalidToken : VercelEnv :=
  { getProjectResp := Except.ok (false, "")
    createProjectResp := Except.ok (false, "", "Forbidden")
    deployResp := Except.ok (true, "myapp.vercel.app", "dpl_1", "")
    statusResp := fun _ => Except.ok (true, "BUILDING")
    cliResult := Except.ok ("", none)
    nowId := "1700000000001"
    randId := "a1b2c3" }

/-- Witness for C6: an invalid token ends in the demo deployment with the
`devshop.local` marker. -/
theorem C6_witness :
    deployApp "invalid-token" "test app" envInvalidToken =
      createDemoDeployment "test app" "a1b2c3" ∧
    strEndsWith ((deployApp "invalid-token" "test app" envInvalidToken).url.getD "")
      "devshop.local" = true := by
  have h := (C6_token_fallback "invalid-token" "test app" envInvalidToken).1
    "Failed to create project: Forbidden" (by decide) (by rfl)
  obtain ⟨heq, hsucc, u, hu, hsuf⟩ := h
  refine ⟨heq, ?_⟩
  rw [hu]
  simpa using hsuf

theorem monitorLoop_polls_le (env : VercelEnv) (fuel : Nat) :
    ∀ i, (monitorLoop env i fuel).2 ≤ fuel := by
  induction fuel with
  | zero => intro i; simp [monitorLoop]
  | succ f ih =>
    intro i
    cases h : env.statusResp i with
    | error e =>
      simp only [monitorLoop, h]
      exact Nat.succ_le_succ (ih (i + 1))
    | ok p =>
      obtain ⟨ok, st⟩ := p
      simp only [monitorLoop, h]
      by_cases hok : ok = true
      · subst hok
        by_cases hr : (st == "READY") = true
        · simp [hr]
        · rw [Bool.not_eq_true] at hr
          by_cases hf : (st == "ERROR" || st == "CANCELED") = true
          · simp [hr, hf]
          · rw [Bool.not_eq_true] at hf
            simp only [hr, hf, if_true, Bool.false_eq_true, if_false]
            exact Nat.succ_le_succ (ih (i + 1))
      · rw [Bool.not_eq_true] at hok
        subst hok
        simp only [Bool.false_eq_true, if_false]
        exact Nat.succ_le_succ (ih (i + 1))

theorem monitorLoop_ready (env : VercelEnv) (fuel : Nat) :
    ∀ i j, (monitorLoop env i fuel).1 = MonitorOutcome.ready j →
      env.statusResp j = Except.ok (true, "READY") := by
  induction fuel with
  | zero => intro i j h; simp [monitorLoop] at h
  | succ f ih =>
    intro i j h
    cases hs : env.statusResp i with
    | error e =>
      simp only [monitorLoop, hs] at h
      exact ih (i + 1) j h
    | ok p =>
      obtain ⟨ok, st⟩ := p
      simp only [monitorLoop, hs] at h
      by_cases hok : ok = true
      · subst hok
        by_cases hr : (st == "READY") = true
        · simp only [hr, if_true] at h
          cases h
          rw [eq_of_beq hr] at hs
          exact hs
        · rw [Bool.not_eq_true] at hr
          by_cases hf : (st == "ERROR" || st == "CANCELED") = true
          · simp [hr, hf] at h
          · rw [Bool.not_eq_true] at hf
            simp only [hr, hf, if_true, Bool.false_eq_true, if_false] at h
            exact ih (i + 1) j h
      · rw [Bool.not_eq_true] at hok
        subst hok
        simp only [Bool.false_eq_true, if_false] at h
        exact ih (i + 1) j h

theorem monitorLoop_buildFailed (env : VercelEnv) (fuel : Nat) :
    ∀ i st j, (monitorLoop env i fuel).1 = MonitorOutcome.buildFailed st j →
      env.statusResp j = Except.ok (true, st) ∧ (st = "ERROR" ∨ st = "CANCELED") := by
  induction fuel with
  | zero => intro i st j h; simp [monitorLoop] at h
  | succ f ih =>
    intro i st j h
    cases hs : env.statusResp i with
    | error e =>
      simp only [monitorLoop, hs] at h
      exact ih (i + 1) st j h
    | ok p =>
      obtain ⟨ok, s⟩ := p
      simp only [monitorLoop, hs] at h
      by_cases hok : ok = true
      · subst hok
        by_cases hr : (s == "READY") = true
        · simp [hr] at h
        · rw [Bool.not_eq_true] at hr
          by_cases hf : (s == "ERROR" || s == "CANCELED") = true
          · simp only [hr, hf, if_true, Bool.false_eq_true, if_false] at h
            obtain ⟨rfl, rfl⟩ := h
            rw [Bool.or_eq_true] at hf
            rcases hf with hf | hf
            · exact ⟨hs, Or.inl (eq_of_beq hf)⟩
            · exact ⟨hs, Or.inr (eq_of_beq hf)⟩
          · rw [Bool.not_eq_true] at hf
            simp only [hr, hf, if_true, Bool.false_eq_true, if_false] at h
            exact ih (i + 1) st j h
      · rw [Bool.not_eq_true] at hok
        subst hok
        simp only [Bool.false_eq_true, if_false] at h
        exact ih (i + 1) st j h

theorem waitLoop_timeout (env : VercelEnv) (fuel : Nat) :
    ∀ i, (∀ j, i ≤ j → j < i + fuel →
        ∃ ok st, env.statusResp j = Except.ok (ok, st) ∧ (ok && st == "READY") = false) →
      waitLoop env i fuel = Except.error "Deployment timeout - took longer than 5 minutes" := by
  induction fuel with
  | zero => intro i _; rfl
  | succ f ih =>
    intro i h
    obtain ⟨ok, st, hst, hcond⟩ := h i (Nat.le_refl i) (by omega)
    simp only [waitLoop, hst, hcond, Bool.false_eq_true, if_false]
    exact ih (i + 1) (fun j hj1 hj2 => h j (by omega) (by omega))

/-- An environment where the remote deployment is accepted but the build
never reaches a terminal state within any poll. -/
def envAcceptedNeverReady : VercelEnv :=
  { getProjectResp := Except.ok (true, "prj_1")
    createProjectResp := Except.ok (true, "prj_1", "OK")
    deployResp := Except.ok (true, "myapp-abc.vercel.app", "dpl_1", "")
    statusResp := fun _ => Except.ok (true, "BUILDING")
    cliResult := Except.ok ("", none)
    nowId := "1700000000002"
    randId := "z9y8x7" }

/-- C7 counterexample: in `src/lib/vercelDeployer.ts` an accepted deployment
whose build never becomes ready does NOT make `createDeployment` return the
accepted URL — the call awaits the readiness poll and throws the timeout
error (a 30-attempt wait, not an unawaited 20-attempt monitor); the
`part_005` variant on the same responses returns the URL immediately. -/
theorem C7_counterexample :
    createDeployment envAcceptedNeverReady =
      Except.error "Deployment timeout - took longer than 5 minutes" ∧
    createDeploymentBG envAcceptedNeverReady =
      Except.ok "https://myapp-abc.vercel.app" := by
  exact ⟨by rfl, by rfl⟩

/-- C7 (amended): in the `part_005` deployer variant, `createDeployment`
returns the URL as soon as the remote deployment is accepted and its value is
a function of the acceptance response alone (so the unawaited monitor can
never change it); the background monitor performs at most 20 polls and stops
exactly on the terminal remote states `READY`, `ERROR` or `CANCELED` (or on
exhausting its attempts). In the `src/lib/vercelDeployer.ts` variant the
synchronous call instead awaits readiness, polling up to 30 times, and throws
the timeout error when no poll reports `READY`. -/
theorem C7_acceptance_and_monitor (env : VercelEnv) :
    (∀ url id errBody, env.deployResp = Except.ok (true, url, id, errBody) →
      createDeploymentBG env = Except.ok ("https://" ++ url)) ∧
    (∀ env' : VercelEnv, env.deployResp = env'.deployResp →
      createDeploymentBG env = createDeploymentBG env') ∧
    (checkDeploymentStatus env).2 ≤ 20 ∧
    (∀ j, (checkDeploymentStatus env).1 = MonitorOutcome.ready j →
      env.statusResp j = Except.ok (true, "READY")) ∧
    (∀ st j, (checkDeploymentStatus env).1 = MonitorOutcome.buildFailed st j →
      env.statusResp j = Except.ok (true, st) ∧ (st = "ERROR" ∨ st = "CANCELED")) ∧
    (∀ url id errBody, env.deployResp = Except.ok (true, url, id, errBody) →
      (∀ j, j < 30 →
        ∃ ok st, env.statusResp j = Except.ok (ok, st) ∧ (ok && st == "READY") = false) →
      createDeployment env = Except.error "Deployment timeout - took longer than 5 minutes") := by
  refine ⟨?_, ?_, monitorLoop_polls_le env 20 0, monitorLoop_ready env 20 0,
    monitorLoop_buildFailed env 20 0, ?_⟩
  · intro url id errBody h
    simp [createDeploymentBG, h]
  · intro env' h
    unfold createDeploymentBG
    rw [h]
  · intro url id errBody hdep hpolls
    have hw : waitForDeployment env =
        Except.error "Deployment timeout - took longer than 5 minutes" :=
      waitLoop_timeout env 30 0 (fun j _ hj => hpolls j (by omega))
    simp [createDeployment, hdep, hw]

/-- Witness for C7 at the concrete accepted-but-never-ready environment. -/
theorem C7_witness :
    createDeploymentBG envAcceptedNeverReady = Except.ok "https://myapp-abc.vercel.app" ∧
    (checkDeploymentStatus envAcceptedNeverReady).2 ≤ 20 ∧
    createDeployment envAcceptedNeverReady =
      Except.error "Deployment timeout - took longer than 5 minutes" := by
  have h := C7_acceptance_and_monitor envAcceptedNeverReady
  refine ⟨h.1 "myapp-abc.vercel.app" "dpl_1" "" rfl, h.2.2.1, ?_⟩
  exact h.2.2.2.2.2 "myapp-abc.vercel.app" "dpl_1" "" rfl
    (fun j _ => ⟨true, "BUILDING", rfl, by decide⟩)

/-! ## Batch Scheduler (`POST`, src/app/api/generate/route.ts)

The streamed run of one accepted batch. After the acceptance check
(`specifications.length === 0` already handled), the route constructs the
`AppGenerator` — whose constructor throws when no Anthropic credential is
configured — and only then emits one `pending` event per specification, so
generator construction is the `setup` oracle. Each job call
(`generator.generateApp`) is the `oracle` parameter (the route guards it with
its own try/catch, so it is allowed to throw here). Within one concurrency
window all `running` events are enqueued in window order before the first
`await`, the completion events are enqueued in promise-settlement order —
modelled by the unconstrained interleaving oracle `pi` — and `Promise.all`
returns the results in window order. `m` stands for
`Math.floor(os.cpus().length * 0.95)` (an environment input); the code takes
`maxConcurrent = Math.max(1, m)`. The float `total_time_seconds` field is a
wall-clock measurement and is not modelled.
-/

/-- The statuses an `app_update` event can carry. -/
inductive JobStatus where
  | pending
  | running
  | completed
  | error
  | deploying
  | deployed
  deriving DecidableEq, Repr

/-- The aggregate summary of one batch run (`GenerationSummary`). -/
structure GenerationSummary where
  total_apps : Nat
  successful_apps : Nat
  failed_apps : Nat
  concurrent_workers : Nat
  cpu_cores : Nat
  output_directory : String
  start_time : String
  end_time : String
  successful : List GenerationResult
  failed : List GenerationResult
  deriving DecidableEq, Repr

/-- One event of the progress stream (`ProgressUpdate` with
`type: 'app_update' | 'final_results'`, and the `type: 'error'` payload). -/
inductive ProgressEvent where
  | item (app_name : String) (status : JobStatus) (progress : Nat)
      (deployment_url : Option String)
  | finalResults (summary : GenerationSummary)
  | errorEvent (message : String)
  deriving DecidableEq, Repr

/-- Consecutive windows of size `j + 1`, mirroring the loop
`for (let i = 0; i < n; i += batchSize)` with `batchSize = j + 1` (the route
passes `maxConcurrent - 1`, and `maxConcurrent ≥ 1`). -/
def chunkBy (j : Nat) : List α → List (List α)
  | [] => []
  | x :: xs => (x :: xs.take j) :: chunkBy j (xs.drop j)
termination_by l => l.length
decreasing_by simp [List.length_drop]; omega

theorem chunkBy_flatten (j : Nat) : ∀ l : List α, (chunkBy j l).flatten = l
  | [] => by simp [chunkBy]
  | x :: xs => by
    simp only [chunkBy, List.flatten_cons]
    rw [chunkBy_flatten j (xs.drop j)]
    simp [List.take_append_drop]
termination_by l => l.length
decreasing_by simp [List.length_drop]; omega

/-- The initial per-spec event: `{status: 'pending', progress: 0}`. -/
def pendingEvent (s : AppSpecification) : ProgressEvent :=
  ProgressEvent.item s.name JobStatus.pending 0 none

/-- The event a job emits when it starts: `{status: 'running', progress: 25}`. -/
def runningEvent (s : AppSpecification) : ProgressEvent :=
  ProgressEvent.item s.name JobStatus.running 25 none

/-- The final status of a finished job: `deployed`/`deploying`/`completed` on
success according to the deployment status, `error` otherwise. -/
def finalStatusOf (res : GenerationResult) : JobStatus :=
  if res.success then
    match res.deployment_status with
    | some DeployStatus.deployed => JobStatus.deployed
    | some DeployStatus.deploying => JobStatus.deploying
    | _ => JobStatus.completed
  else JobStatus.error

/-- The event a job emits when it finishes: progress 100 with its final
status and deployment URL; a thrown job is caught and emits `error` with no
URL. -/
def completionEvent (oracle : AppSpecification → Except String GenerationResult)
    (s : AppSpecification) : ProgressEvent :=
  match oracle s with
  | Except.ok res => ProgressEvent.item s.name (finalStatusOf res) 100 res.deployment_url
  | Except.error _ => ProgressEvent.item s.name JobStatus.error 100 none

/-- The `GenerationResult` one job contributes: the job's own result, or for a
thrown job the failed result the route's catch builds. -/
def jobResult (tNow : String)
    (oracle : AppSpecification → Except String GenerationResult)
    (s : AppSpecification) : GenerationResult :=
  match oracle s with
  | Except.ok res => res
  | Except.error e =>
    { success := false, app_name := s.name, error := some e, generation_time := tNow }

/-- The events of one concurrency window: all `running` events in window
order, then the completion events in settlement order `pi b`. -/
def batchEvents (oracle : AppSpecification → Except String GenerationResult)
    (pi : List AppSpecification → List AppSpecification)
    (b : List AppSpecification) : List ProgressEvent :=
  b.map runningEvent ++ (pi b).map (completionEvent oracle)

/-- The summary computed after all windows:
`total_apps = specifications.length`, the success/failure partition of the
collected results, and the run parameters. -/
def mkSummary (specs : List AppSpecification) (results : List GenerationResult)
    (k cpu : Nat) (startT endT : String) : GenerationSummary :=
  { total_apps := specs.length
    successful_apps := (results.filter (fun r => r.success)).length
    failed_apps := (results.filter (fun r => !r.success)).length
    concurrent_workers := k
    cpu_cores := cpu
    output_directory := "public/generated_apps"
    start_time := startT
    end_time := endT
    successful := results.filter (fun r => r.success)
    failed := results.filter (fun r => !r.success) }

/-- The full event stream of one accepted batch: a failing setup
short-circuits to a single error event; otherwise all pending events in input
order, the window events window by window, and the final summary. -/
def runStream (specs : List AppSpecification) (setup : Except String Unit)
    (m cpu : Nat) (oracle : AppSpecification → Except String GenerationResult)
    (pi : List AppSpecification → List AppSpecification)
    (tNow startT endT : String) : List ProgressEvent :=
  match setup with
  | Except.error msg => [ProgressEvent.errorEvent msg]
  | Except.ok _ =>
    let maxConcurrent := max 1 m
    let batches := chunkBy (maxConcurrent - 1) specs
    let results := (batches.map (fun b => b.map (jobResult tNow oracle))).flatten
    (specs.map pendingEvent) ++
      (batches.map (batchEvents oracle pi)).flatten ++
      [ProgressEvent.finalResults (mkSummary specs results maxConcurrent cpu startT endT)]

/-- Recognizes a pending-status item event. -/
def isPendingEvent : ProgressEvent → Bool
  | ProgressEvent.item _ JobStatus.pending _ _ => true
  | _ => false

/-- Recognizes a terminal event: the final summary or the error event. -/
def isTerminalEvent : ProgressEvent → Bool
  | ProgressEvent.finalResults _ => true
  | ProgressEvent.errorEvent _ => true
  | _ => false

/-! ### Batch Scheduler claims -/

theorem finalStatusOf_ne_pending (res : GenerationResult) :
    finalStatusOf res ≠ JobStatus.pending := by
  unfold finalStatusOf
  split
  · split <;> decide
  · decide

theorem batchEvents_not_pending
    (oracle : AppSpecification → Except String GenerationResult)
    (pi : List AppSpecification → List AppSpecification)
    (b : List AppSpecification) (e : ProgressEvent)
    (he : e ∈ batchEvents oracle pi b) : isPendingEvent e = false := by
  unfold batchEvents at he
  rw [List.mem_append] at he
  rcases he with he | he
  · rw [List.mem_map] at he
    obtain ⟨s, _, rfl⟩ := he
    rfl
  · rw [List.mem_map] at he
    obtain ⟨s, _, rfl⟩ := he
    unfold completionEvent
    cases ho : oracle s with
    | ok res =>
      have := finalStatusOf_ne_pending res
      unfold isPendingEvent
      cases hst : finalStatusOf res <;> simp_all
    | error err => rfl

theorem batchEvents_not_terminal
    (oracle : AppSpecification → Except String GenerationResult)
    (pi : List AppSpecification → List AppSpecification)
    (b : List AppSpecification) (e : ProgressEvent)
    (he : e ∈ batchEvents oracle pi b) : isTerminalEvent e = false := by
  unfold batchEvents at he
  rw [List.mem_append] at he
  rcases he with he | he <;>
  · rw [List.mem_map] at he
    obtain ⟨s, _, rfl⟩ := he
    first
    | rfl
    | (unfold completionEvent; cases oracle s <;> rfl)

/-- C1 counterexample: one accepted specification whose run aborts during
setup (the `AppGenerator` constructor throws without an Anthropic credential,
before any `pending` event is enqueued): the stream is the single error event
and contains zero pending events instead of one. -/
theorem C1_counterexample :
    (runStream [{ name := "Fitness Tracker" }]
        (Except.error "ANTHROPIC_API_KEY or ANTHROPIC_TOKEN environment variable is required")
        4 4 (fun _ => Except.error "unused") id "t" "t0" "t1").countP isPendingEvent = 0 ∧
    ([{ name := "Fitness Tracker" }] : List AppSpecification).length = 1 ∧
    (runStream [{ name := "Fitness Tracker" }]
        (Except.error "ANTHROPIC_API_KEY or ANTHROPIC_TOKEN environment variable is required")
        4 4 (fun _ => Except.error "unused") id "t" "t0" "t1").getLast? =
      some (ProgressEvent.errorEvent
        "ANTHROPIC_API_KEY or ANTHROPIC_TOKEN environment variable is required") := by
  exact ⟨by rfl, by rfl, by rfl⟩

/-- C1 (amended): for every accepted batch the stream ends in exactly one
terminal event (one final summary or one error event, never both and never
neither); when generator setup fails after acceptance, the stream is the
single error event (so no pending event is emitted); when setup succeeds, the
first N events are exactly the N pending events in input order, no pending
event occurs afterwards (so all of them precede every running event), and the
last event is the final summary. -/
theorem C1_stream_shape (specs : List AppSpecification) (setup : Except String Unit)
    (m cpu : Nat) (oracle : AppSpecification → Except String GenerationResult)
    (pi : List AppSpecification → List AppSpecification)
    (tNow startT endT : String) (hne : 0 < specs.length) :
    (((runStream specs setup m cpu oracle pi tNow startT endT).filter
        isTerminalEvent).length = 1 ∧
      ∃ e, (runStream specs setup m cpu oracle pi tNow startT endT).getLast? = some e ∧
        isTerminalEvent e = true) ∧
    (∀ msg, setup = Except.error msg →
      runStream specs setup m cpu oracle pi tNow startT endT =
        [ProgressEvent.errorEvent msg]) ∧
    (setup = Except.ok () →
      (runStream specs setup m cpu oracle pi tNow startT endT).take specs.length =
        specs.map pendingEvent ∧
      (runStream specs setup m cpu oracle pi tNow startT endT).countP isPendingEvent =
        specs.length ∧
      (∀ e ∈ (runStream specs setup m cpu oracle pi tNow startT endT).drop specs.length,
        isPendingEvent e = false) ∧
      (runStream specs setup m cpu oracle pi tNow startT endT).getLast? =
        some (ProgressEvent.finalResults (mkSummary specs
          ((chunkBy (max 1 m - 1) specs).map
            (fun b => b.map (jobResult tNow oracle))).flatten
          (max 1 m) cpu startT endT))) := by
  cases hsetup : setup with
  | error msg =>
    refine ⟨⟨by simp [runStream, isTerminalEvent], ?_⟩, ?_, ?_⟩
    · exact ⟨ProgressEvent.errorEvent msg, by simp [runStream], rfl⟩
    · intro msg' h
      cases h
      rfl
    · intro h
      cases h
  | ok u =>
    cases u
    have hmid : ∀ e ∈ ((chunkBy (max 1 m - 1) specs).map (batchEvents oracle pi)).flatten,
        isPendingEvent e = false ∧ isTerminalEvent e = false := by
      intro e he
      rw [List.mem_flatten] at he
      obtain ⟨l, hl, hel⟩ := he
      rw [List.mem_map] at hl
      obtain ⟨b, _, rfl⟩ := hl
      exact ⟨batchEvents_not_pending oracle pi b e hel,
        batchEvents_not_terminal oracle pi b e hel⟩
    have hpend_not_term : ∀ e ∈ specs.map pendingEvent, isTerminalEvent e = false := by
      intro e he
      rw [List.mem_map] at he
      obtain ⟨s, _, rfl⟩ := he
      rfl
    have hstream : runStream specs (Except.ok ()) m cpu oracle pi tNow startT endT =
        specs.map pendingEvent ++
          ((chunkBy (max 1 m - 1) specs).map (batchEvents oracle pi)).flatten ++
          [ProgressEvent.finalResults (mkSummary specs
            ((chunkBy (max 1 m - 1) specs).map
              (fun b => b.map (jobResult tNow oracle))).flatten
            (max 1 m) cpu startT endT)] := rfl
    refine ⟨⟨?_, ?_⟩, ?_, ?_⟩
    · rw [hstream]
      rw [List.filter_append, List.filter_append]
      rw [List.filter_eq_nil_iff.2 (fun e he => by simp [hpend_not_term e he]),
        List.filter_eq_nil_iff.2 (fun e he => by simp [(hmid e he).2])]
      rfl
    · refine ⟨ProgressEvent.finalResults (mkSummary specs
        ((chunkBy (max 1 m - 1) specs).map
          (fun b => b.map (jobResult tNow oracle))).flatten
        (max 1 m) cpu startT endT), ?_, rfl⟩
      rw [hstream, List.append_assoc, ← List.append_assoc, List.getLast?_concat]
    · intro msg h
      simp at h
    · intro _
      refine ⟨?_, ?_, ?_, ?_⟩
      · rw [hstream, List.append_assoc,
          List.take_left' (by rw [List.length_map])]
      · rw [hstream]
        rw [List.countP_append, List.countP_append]
        have h1 : (specs.map pendingEvent).countP isPendingEvent =
            (specs.map pendingEvent).length := by
          rw [List.countP_eq_length]
          intro e he
          rw [List.mem_map] at he
          obtain ⟨s, _, rfl⟩ := he
          rfl
        have h2 : (((chunkBy (max 1 m - 1) specs).map
            (batchEvents oracle pi)).flatten).countP isPendingEvent = 0 := by
          rw [List.countP_eq_zero]
          intro e he
          simp [(hmid e he).1]
        rw [h1, h2, List.length_map]
        simp [isPendingEvent]
      · intro e he
        rw [hstream, List.append_assoc,
          List.drop_left' (by rw [List.length_map])] at he
        rw [List.mem_append] at he
        rcases he with he | he
        · exact (hmid e he).1
        · rw [List.mem_singleton] at he
          subst he
          rfl
      · rw [hstream, List.append_assoc, ← List.append_assoc, List.getLast?_concat]

/-- Witness for C1 at a concrete two-spec batch with one successful and one
throwing job. -/
theorem C1_witness :
    0 < ([{ name := "App One" }, { name := "App Two" }] :
      List AppSpecification).length ∧
    (runStream [{ name := "App One" }, { name := "App Two" }] (Except.ok ()) 1 4
        (fun s => if s.name = "App One"
          then Except.ok { success := true, app_name := s.name, generation_time := "t1" }
          else Except.error "Claude API error")
        id "t" "t0" "t1").countP isPendingEvent = 2 := by
  have h := C1_stream_shape [{ name := "App One" }, { name := "App Two" }]
    (Except.ok ()) 1 4
    (fun s => if s.name = "App One"
      then Except.ok { success := true, app_name := s.name, generation_time := "t1" }
      else Except.error "Claude API error")
    id "t" "t0" "t1" (by decide)
  exact ⟨by decide, (h.2.2 rfl).2.1⟩

/-- C8: for every completed batch run (setup succeeded), the final summary
satisfies `total_apps = successful_apps + failed_apps`; the collected results
are exactly one `GenerationResult` per accepted specification in input order
(a throwing job contributing the catch-built failed result), and the
summary's success/failure lists partition them. -/
theorem C8_summary_partition (specs : List AppSpecification)
    (setup : Except String Unit) (m cpu : Nat)
    (oracle : AppSpecification → Except String GenerationResult)
    (pi : List AppSpecification → List AppSpecification)
    (tNow startT endT : String) (hsetup : setup = Except.ok ()) :
    ProgressEvent.finalResults (mkSummary specs
        ((chunkBy (max 1 m - 1) specs).map
          (fun b => b.map (jobResult tNow oracle))).flatten
        (max 1 m) cpu startT endT) ∈
      runStream specs setup m cpu oracle pi tNow startT endT ∧
    ((chunkBy (max 1 m - 1) specs).map
        (fun b => b.map (jobResult tNow oracle))).flatten =
      specs.map (jobResult tNow oracle) ∧
    (mkSummary specs
        ((chunkBy (max 1 m - 1) specs).map
          (fun b => b.map (jobResult tNow oracle))).flatten
        (max 1 m) cpu startT endT).total_apps =
      (mkSummary specs
        ((chunkBy (max 1 m - 1) specs).map
          (fun b => b.map (jobResult tNow oracle))).flatten
        (max 1 m) cpu startT endT).successful_apps +
      (mkSummary specs
        ((chunkBy (max 1 m - 1) specs).map
          (fun b => b.map (jobResult tNow oracle))).flatten
        (max 1 m) cpu startT endT).failed_apps := by
  have hres : ((chunkBy (max 1 m - 1) specs).map
      (fun b => b.map (jobResult tNow oracle))).flatten =
      specs.map (jobResult tNow oracle) := by
    rw [← List.map_flatten, chunkBy_flatten]
  refine ⟨?_, hres, ?_⟩
  · rw [hsetup]
    unfold runStream
    rw [List.mem_append]
    exact Or.inr (List.mem_singleton.2 rfl)
  · unfold mkSummary
    rw [hres]
    simp only
    have h := List.length_eq_length_filter_add
      (l := specs.map (jobResult tNow oracle)) (fun r => r.success)
    rw [List.length_map] at h
    simpa using h

/-- Witness for C8 at a concrete two-spec batch (window size 1, one job
throwing): `total_apps = successful_apps + failed_apps = 2`. -/
theorem C8_witness :
    (mkSummary [{ name := "App One" }, { name := "App Two" }]
        ((chunkBy (max 1 1 - 1) [{ name := "App One" }, { name := "App Two" }]).map
          (fun b => b.map (jobResult "t"
            (fun s => if s.name = "App One"
              then Except.ok { success := true, app_name := s.name, generation_time := "t1" }
              else Except.error "Claude API error")))).flatten
        (max 1 1) 4 "t0" "t1").total_apps =
      (mkSummary [{ name := "App One" }, { name := "App Two" }]
        ((chunkBy (max 1 1 - 1) [{ name := "App One" }, { name := "App Two" }]).map
          (fun b => b.map (jobResult "t"
            (fun s => if s.name = "App One"
              then Except.ok { success := true, app_name := s.name, generation_time := "t1" }
              else Except.error "Claude API error")))).flatten
        (max 1 1) 4 "t0" "t1").successful_apps +
      (mkSummary [{ name := "App One" }, { name := "App Two" }]
        ((chunkBy (max 1 1 - 1) [{ name := "App One" }, { name := "App Two" }]).map
          (fun b => b.map (jobResult "t"
            (fun s => if s.name = "App One"
              then Except.ok { success := true, app_name := s.name, generation_time := "t1" }
              else Except.error "Claude API error")))).flatten
        (max 1 1) 4 "t0" "t1").failed_apps :=
  (C8_summary_partition [{ name := "App One" }, { name := "App Two" }]
    (Except.ok ()) 1 4
    (fun s => if s.name = "App One"
      then Except.ok { success := true, app_name := s.name, generation_time := "t1" }
      else Except.error "Claude API error")
    id "t" "t0" "t1" rfl).2.2

end DevShop
